/-
Verification of the video-preprocessing backend of the
Action-Recognition-CNN-LSTM repository (Flask + CNN/LSTM inference).

Shallow embedding of `src/backend/video_utils.py`, `src/backend/app.py`
and `src/backend/model_loader.py`.  External libraries (OpenCV, imageio,
numpy, the filesystem) are modelled explicitly:
  * a decoded video stream is the list of raw frames the decoder yields,
    and a decoder failure (a raised exception / unopenable capture) is
    `Option.none`;
  * `cv2.resize` is modelled as a nearest-neighbour resampling producing
    the requested square shape (the claims depend only on the output
    shape and on which input frame each output frame comes from, not on
    the interpolation kernel);
  * pixel values are rationals (`ℚ`), standing for the real pixel
    arithmetic `x / 255.0`;
  * the filesystem is a characteristic function `String → Bool` of the
    set of existing paths.
-/
import Mathlib

namespace ActionRec

/-! ## Images (numpy arrays of rank 3: height × width × channels) -/

/-- A decoded video frame / image: a pixel grid with an explicit shape,
mirroring a numpy array of shape `(height, width, channels)`.
`pixel r c ch` is the value at row `r`, column `c`, channel `ch`. -/
structure Image where
  height : Nat
  width : Nat
  channels : Nat
  pixel : Nat → Nat → Nat → ℚ

/-- `np.zeros((img_size, img_size, CHANNELS))` with `CHANNELS = 3`
(video_utils.py line 85). -/
def zeroImage (img_size : Nat) : Image :=
  ⟨img_size, img_size, 3, fun _ _ _ => 0⟩

/-- Model of `cv2.resize(frame, (img_size, img_size))`: the output is an
`img_size × img_size` image over the same channels; each output pixel is
taken from the source by coordinate scaling (nearest-neighbour model of
the external OpenCV resampler). -/
def cvResize (img : Image) (img_size : Nat) : Image :=
  ⟨img_size, img_size, img.channels,
    fun r c ch => img.pixel (r * img.height / img_size) (c * img.width / img_size) ch⟩

/-- `frame / 255.0` (pixel-wise normalisation to `[0, 1]`). -/
def normalizeImage (img : Image) : Image :=
  ⟨img.height, img.width, img.channels, fun r c ch => img.pixel r c ch / 255⟩

/-- Model of `cv2.cvtColor(frame, cv2.COLOR_BGR2RGB)`: reversal of the
three colour channels. -/
def cvtColorBGR2RGB (img : Image) : Image :=
  ⟨img.height, img.width, img.channels, fun r c ch => img.pixel r c (2 - ch)⟩

/-! ## video_utils.py: constants and frame extraction -/

/-- `SEQ_LENGTH = 20` (video_utils.py line 11). -/
def SEQ_LENGTH : Nat := 20

/-- `IMG_SIZE = 224` (video_utils.py line 12). -/
def IMG_SIZE : Nat := 224

/-- `CHANNELS = 3` (video_utils.py line 13). -/
def CHANNELS : Nat := 3

/-- The per-frame processing of the primary (imageio) decode path
(video_utils.py lines 57-63): resize, then divide by 255. -/
def primaryStep (img_size : Nat) (frame : Image) : Image :=
  normalizeImage (cvResize frame img_size)

/-- The per-frame processing of the fallback (OpenCV) decode path
(video_utils.py lines 118-125): BGR→RGB, then resize, then divide by 255. -/
def fallbackStep (img_size : Nat) (frame : Image) : Image :=
  normalizeImage (cvResize (cvtColorBGR2RGB frame) img_size)

/-- `extract_frames_opencv(video_path, seq_length, img_size)`
(video_utils.py lines 91-131).

`cap` models `cv2.VideoCapture(video_path)`: `none` when
`cap.isOpened()` is false (the function returns `None`), otherwise the
list of raw BGR frames the capture yields in decode order.  The loop
reads frames while `frame_count < seq_length` and the read succeeds, so
exactly the first `seq_length` decoded frames are processed. -/
def extract_frames_opencv (cap : Option (List Image))
    (seq_length img_size : Nat) : Option (List Image) :=
  match cap with
  | none => none
  | some raws => some ((raws.take seq_length).map (fallbackStep img_size))

/-- Right-padding with zero frames: the
`while len(frames) < seq_length: frames.append(np.zeros(...))` loop of
video_utils.py lines 84-85. -/
def padFrames (frames : List Image) (seq_length img_size : Nat) : List Image :=
  frames ++ List.replicate (seq_length - frames.length) (zeroImage img_size)

/-- `extract_frames(video_path, seq_length, img_size)`
(video_utils.py lines 16-88).

`primary` models the imageio/ffmpeg reader: `none` when
`imageio.get_reader` or the frame iteration raises, otherwise the list
of raw frames in decode order.  On the primary path the loop
`for i, frame in enumerate(reader)` breaks at `i >= seq_length`, so only
the first `seq_length` frames are used.  On a primary exception the
OpenCV fallback is tried (`cap` models the capture); a fallback that
raises, returns `None` or returns an empty list makes the whole call
return `None`.  An empty frame list returns `None`
(lines 79-81); otherwise the list is zero-padded to `seq_length`.
`decodedFrames` is the value of the local `frames` variable after the
try/except block (lines 36-77); `extract_frames` applies the emptiness
check and zero-padding (lines 79-88) to it. -/
def decodedFrames (primary : Option (List Image)) (cap : Option (List Image))
    (seq_length img_size : Nat) : Option (List Image) :=
  match primary with
  | some raws => some ((raws.take seq_length).map (primaryStep img_size))
  | none =>
    match extract_frames_opencv cap seq_length img_size with
    | none => none
    | some fb => if fb.length = 0 then none else some fb

def extract_frames (primary : Option (List Image)) (cap : Option (List Image))
    (seq_length img_size : Nat) : Option (List Image) :=
  match decodedFrames primary cap seq_length img_size with
  | none => none
  | some frames =>
    if frames.length = 0 then none
    else some (padFrames frames seq_length img_size)

/-! ## video_utils.py: preprocess_video -/

/-- The numpy dtypes relevant to the backend. -/
inductive DType where
  | float32
  | float64
  | uint8
deriving DecidableEq, Repr

/-- A numpy ndarray of arbitrary rank: an explicit shape, a dtype and the
flattened (row-major) data.  The claims about `preprocess_video` concern
rank, shape and dtype, so the element values are kept as rationals
independent of the dtype tag. -/
structure NDArray where
  shape : List Nat
  dtype : DType
  data : List ℚ

/-- `np.expand_dims(frames, axis=0)`: prepend a batch dimension of size 1. -/
def expandDims0 (a : NDArray) : NDArray :=
  { a with shape := 1 :: a.shape }

/-- `arr.astype(np.float32)`: retag the dtype as 32-bit float. -/
def astypeFloat32 (a : NDArray) : NDArray :=
  { a with dtype := .float32 }

/-- Python's rendering of a shape tuple, e.g. `(20, 224, 224, 3)`
(a 1-tuple renders with a trailing comma). -/
def pyShapeRepr (shape : List Nat) : String :=
  match shape with
  | [n] => "(" ++ toString n ++ ",)"
  | _ => "(" ++ String.intercalate ", " (shape.map toString) ++ ")"

/-- `preprocess_video(frames)` (video_utils.py lines 134-164).

`none` input models the Python value `None`; a raised `ValueError` is
`Except.error` carrying the exception message.  Rank 4 gains a batch
dimension, rank 5 passes through, anything else raises; the result is
cast to float32. -/
def preprocess_video (frames : Option NDArray) : Except String NDArray :=
  match frames with
  | none => .error "Frames cannot be None"
  | some a =>
    if a.shape.length = 4 then
      .ok (astypeFloat32 (expandDims0 a))
    else if a.shape.length = 5 then
      .ok (astypeFloat32 a)
    else
      .error ("Invalid frames shape: " ++ pyShapeRepr a.shape)

/-! ## model_loader.py: class labels -/

/-- The default UCF11 class list (model_loader.py lines 128-140). -/
def defaultClasses : List String :=
  ["basketball", "biking", "diving", "golf_swing", "horse_riding",
   "soccer_juggling", "swing", "tennis_swing", "trampoline_jumping",
   "volleyball_spiking", "walking"]

/-- The parsed contents of `models/classes.json`: a JSON object whose
top-level `classes` key, when present, holds a list of strings. -/
structure ClassesFile where
  classes : Option (List String)

/-- `get_class_labels()` (model_loader.py lines 104-142).

`cache` models the module-global `_class_labels` (`none` when unset);
`file` models the classes file: `none` when `os.path.exists(CLASSES_PATH)`
is false, otherwise the parsed JSON object.  `data.get('classes', [])`
defaults to the empty list when the key is absent. -/
def get_class_labels (cache : Option (List String)) (file : Option ClassesFile) :
    List String :=
  match cache with
  | some labels => labels
  | none =>
    match file with
    | some f => f.classes.getD []
    | none => defaultClasses

/-- The body of `GET /classes` (app.py lines 58-64): the JSON payload is
the label list together with its length. -/
def get_classes (labels : List String) : List String × Nat :=
  (labels, labels.length)

/-! ## app.py: upload validation, prediction response, /predict handler -/

/-- `ALLOWED_EXTENSIONS` (app.py line 21). -/
def ALLOWED_EXTENSIONS : List String :=
  ["mp4", "avi", "mov", "mpg", "mpeg", "mkv", "webm"]

/-- `UPLOAD_FOLDER` (app.py line 20). -/
def UPLOAD_FOLDER : String := "uploads"

/-- Model of Python `filename.rsplit('.', 1)[1]` for a filename containing
a dot: the characters after the last `'.'`. -/
def afterLastDot (s : String) : String :=
  String.mk ((s.toList.reverse.takeWhile (fun c => c ≠ '.')).reverse)

/-- ASCII lowering of one character, the per-character action of Python
`str.lower()` on the ASCII filenames at hand. -/
def lowerChar (c : Char) : Char :=
  if 'A' ≤ c && c ≤ 'Z' then Char.ofNat (c.toNat + 32) else c

/-- Model of Python `str.lower()`: lower every character. -/
def pyLower (s : String) : String :=
  String.mk (s.toList.map lowerChar)

/-- `allowed_file(filename)` (app.py lines 37-40): the filename contains a
dot and the lowercased segment after its last dot is an allowed extension. -/
def allowed_file (filename : String) : Bool :=
  filename.toList.contains '.'
    && ALLOWED_EXTENSIONS.contains (pyLower (afterLastDot filename))

/-- The insertion-ordered `all_predictions` dict (app.py lines 133-136):
label `i` maps to probability `i`, in class-index order.  `getD` models
total indexing; the handler is only analysed on prediction vectors of
matching length. -/
def allPredictionsList (labels : List String) (preds : List ℚ) :
    List (String × ℚ) :=
  (List.range labels.length).map (fun i => (labels.getD i "", preds.getD i 0))

/-- `dict(sorted(all_predictions.items(), key=lambda x: x[1], reverse=True))`
(app.py lines 139-141): a stable sort of the label/probability pairs by
descending probability, modelled with `List.mergeSort` (stable, keeps `a`
before `b` when the comparison accepts the pair). -/
def sortedPredictions (labels : List String) (preds : List ℚ) :
    List (String × ℚ) :=
  (allPredictionsList labels preds).mergeSort (fun a b => decide (b.2 ≤ a.2))

/-- `int(predictions[0].argmax())` (app.py line 128): the first index
attaining the maximum (numpy tie-breaking). -/
def npArgmax (preds : List ℚ) : Nat :=
  (preds.enum.foldl (fun best p => if best.2 < p.2 then p else best)
    (0, preds.headD 0)).1

/-- The relevant data of an incoming `/predict` request:
whether the multipart field `video` is present, and the uploaded filename
(`""` models an empty-filename upload). -/
structure PredictRequest where
  hasVideoField : Bool
  filename : String

/-- The possible `/predict` responses (app.py lines 78-164), identified by
exit path.  The success payload carries the predicted action, its class
index and the sorted `all_predictions` pairs; the rounded percentage and
the human-readable message are presentation and not modelled. -/
inductive PredictResponse where
  | noVideoField                    -- 400, 'No video file provided'
  | noFileSelected                  -- 400, 'No file selected'
  | invalidFileType                 -- 400, 'Invalid file type'
  | decodeFailure                   -- 400, 'Failed to process video'
  | serverError (msg : String)      -- 500, outer except branch
  | success (action : String) (classIndex : Nat)
      (allPredictions : List (String × ℚ))
deriving DecidableEq

/-- The filesystem, as the characteristic function of the set of
existing paths. -/
def FS : Type := String → Bool

/-- `video_file.save(filepath)`: the path now exists. -/
def fsSave (fs : FS) (path : String) : FS :=
  fun q => if q = path then true else fs q

/-- The cleanup block `if os.path.exists(filepath): os.remove(filepath)`
(app.py lines 156-157): afterwards the path does not exist. -/
def fsCleanup (fs : FS) (path : String) : FS :=
  fun q => if q = path then false else fs q

/-- The `/predict` handler `predict()` (app.py lines 67-164).

External effects are oracles: `secure` is `werkzeug.secure_filename`;
`primary path` / `cap path` are the decoder outcomes for the saved file
(as in `extract_frames`); `inferExc` is `some msg` when
`preprocess_video` or `model.predict` (or the response construction)
raises an exception with message `msg`, and `none` when inference
succeeds with probability vector `preds` over `labels`.

The request is validated (field present, non-empty filename, allowed
extension); then the upload is saved to
`uploads/<secure filename>`, frames are extracted, inference runs, and
the `finally` block removes the saved file on every exit path of the
inner `try`; the outer `except` turns any exception into a 500
response. -/
def predict (req : PredictRequest) (secure : String → String)
    (primary : String → Option (List Image)) (cap : String → Option (List Image))
    (inferExc : Option String) (preds : List ℚ) (labels : List String)
    (fs : FS) : PredictResponse × FS :=
  if req.hasVideoField = false then (.noVideoField, fs)
  else if req.filename = "" then (.noFileSelected, fs)
  else if allowed_file req.filename = false then (.invalidFileType, fs)
  else
    let filepath := UPLOAD_FOLDER ++ "/" ++ secure req.filename
    let fs1 := fsSave fs filepath
    let response : PredictResponse :=
      match extract_frames (primary filepath) (cap filepath) SEQ_LENGTH IMG_SIZE with
      | none => .decodeFailure
      | some _frames =>
        match inferExc with
        | some msg => .serverError msg
        | none =>
          let idx := npArgmax preds
          .success (labels.getD idx "") idx (sortedPredictions labels preds)
    (response, fsCleanup fs1 filepath)

/-! ## Auxiliary values and spec-side notions used in the statements -/

/-- Lexicographic (alphabetical) strict order on character lists, the
spec-side notion used to state that the default label list is
alphabetically ordered. -/
def charListLt : List Char → List Char → Bool
  | _, [] => false
  | [], _ :: _ => true
  | a :: as, b :: bs => decide (a < b) || (a == b && charListLt as bs)

/-- A string list is strictly ascending in alphabetical order. -/
def strSortedAsc : List String → Bool
  | [] => true
  | [_] => true
  | a :: b :: rest => charListLt a.toList b.toList && strSortedAsc (b :: rest)

/-- The rational 1/2, a concrete tied probability value. -/
def halfQ : ℚ := ⟨1, 2, by decide, by decide⟩

/-- A small concrete raw frame used to instantiate decoder outcomes. -/
def testImage : Image := ⟨2, 2, 3, fun _ _ _ => 1⟩

/-- The empty filesystem. -/
def fsEmpty : FS := fun _ => false

/-- A rank-4 float64 array (a 20-frame sequence before batching). -/
def arr4 : NDArray := ⟨[SEQ_LENGTH, IMG_SIZE, IMG_SIZE, CHANNELS], .float64, []⟩

/-- A rank-5 uint8 array (already batched). -/
def arr5 : NDArray := ⟨[1, SEQ_LENGTH, IMG_SIZE, IMG_SIZE, CHANNELS], .uint8, []⟩

/-- A rank-2 array, an invalid input to `preprocess_video`. -/
def arr2 : NDArray := ⟨[2, 3], .float64, []⟩

/-! ## Claims -/

theorem decodedFrames_primary (raws : List Image) (c : Option (List Image))
    (n s : Nat) :
    decodedFrames (some raws) c n s = some ((raws.take n).map (primaryStep s)) :=
  rfl

theorem decodedFrames_fallback (raws : List Image) (n s : Nat) :
    decodedFrames none (some raws) n s
      = if ((raws.take n).map (fallbackStep s)).length = 0 then none
        else some ((raws.take n).map (fallbackStep s)) :=
  rfl

theorem decodedFrames_noDecoder (n s : Nat) :
    decodedFrames none none n s = none :=
  rfl

theorem extract_frames_of_some {p c : Option (List Image)} {n s : Nat}
    {frames : List Image} (h : decodedFrames p c n s = some frames) :
    extract_frames p c n s
      = if frames.length = 0 then none else some (padFrames frames n s) := by
  unfold extract_frames
  rw [h]

theorem extract_frames_of_none {p c : Option (List Image)} {n s : Nat}
    (h : decodedFrames p c n s = none) :
    extract_frames p c n s = none := by
  unfold extract_frames
  rw [h]

/-- C4: on the fallback (OpenCV) decode path every decoded frame is
converted from BGR to RGB (channel index reversed) before it is resized
and normalized, while the primary (imageio) path applies no channel
reorder: pixel `(r, c, ch)` of a fallback-processed frame reads source
channel `2 - ch`, pixel `(r, c, ch)` of a primary-processed frame reads
source channel `ch`, and `extract_frames_opencv` applies exactly the
fallback processing to the frames it reads. -/
theorem claim_C4 :
    ∀ (f : Image) (s r c ch : Nat) (raws : List Image) (n : Nat),
      (fallbackStep s f).pixel r c ch
          = f.pixel (r * f.height / s) (c * f.width / s) (2 - ch) / 255
      ∧ (primaryStep s f).pixel r c ch
          = f.pixel (r * f.height / s) (c * f.width / s) ch / 255
      ∧ extract_frames_opencv (some raws) n s
          = some ((raws.take n).map (fallbackStep s)) :=
  fun _ _ _ _ _ _ _ => ⟨rfl, rfl, rfl⟩

/-- C5: `preprocess_video` rejects `None`; maps a rank-4 array to rank 5
by prepending a batch dimension of size 1; passes a rank-5 array through
with shape and data unchanged; rejects any other rank with a `ValueError`
naming the offending shape; and every returned array is float32
regardless of the input dtype. -/
theorem claim_C5 :
    preprocess_video none = .error "Frames cannot be None"
    ∧ ∀ a : NDArray,
        (a.shape.length = 4 →
          preprocess_video (some a) = .ok ⟨1 :: a.shape, .float32, a.data⟩)
        ∧ (a.shape.length = 5 →
          preprocess_video (some a) = .ok ⟨a.shape, .float32, a.data⟩)
        ∧ (a.shape.length ≠ 4 → a.shape.length ≠ 5 →
          preprocess_video (some a)
            = .error ("Invalid frames shape: " ++ pyShapeRepr a.shape)) := by
  refine ⟨rfl, fun a => ⟨fun h4 => ?_, fun h5 => ?_, fun h4 h5 => ?_⟩⟩
  · simp [preprocess_video, h4, astypeFloat32, expandDims0]
  · have h4 : a.shape.length ≠ 4 := by omega
    simp [preprocess_video, h4, h5, astypeFloat32]
  · simp [preprocess_video, h4, h5]

/-- C5 witness: the three behaviours at concrete arrays: a rank-4
float64 array gains a batch dimension and becomes float32, a rank-5
uint8 array keeps shape and data and becomes float32, and a rank-2
array raises with its shape in the message. -/
theorem claim_C5_witness :
    preprocess_video (some arr4) = .ok ⟨1 :: arr4.shape, .float32, arr4.data⟩
    ∧ preprocess_video (some arr5) = .ok ⟨arr5.shape, .float32, arr5.data⟩
    ∧ preprocess_video (some arr2)
        = .error ("Invalid frames shape: " ++ pyShapeRepr arr2.shape) :=
  ⟨(claim_C5.2 arr4).1 rfl, ((claim_C5.2 arr5).2).1 rfl,
   ((claim_C5.2 arr2).2).2 (by decide) (by decide)⟩

/-- C8: with no classes file present (and an unset cache),
`get_class_labels` returns exactly the 11 default UCF11 labels in
alphabetical order, and `GET /classes` responds with those labels and
count 11. -/
theorem claim_C8 :
    get_class_labels none none
        = ["basketball", "biking", "diving", "golf_swing", "horse_riding",
           "soccer_juggling", "swing", "tennis_swing", "trampoline_jumping",
           "volleyball_spiking", "walking"]
    ∧ (get_class_labels none none).length = 11
    ∧ strSortedAsc (get_class_labels none none) = true
    ∧ get_classes (get_class_labels none none)
        = (["basketball", "biking", "diving", "golf_swing", "horse_riding",
            "soccer_juggling", "swing", "tennis_swing", "trampoline_jumping",
            "volleyball_spiking", "walking"], 11) :=
  ⟨rfl, rfl, by decide, rfl⟩

/-- C9: `allowed_file` accepts a filename iff it contains a dot and the
lowercased segment after its last dot is an allowed extension; the check
is case-insensitive on the extension and looks only at the final
extension segment: `clip.MP4` is accepted, `clip.mp4.txt` and the
dot-free `clip` are rejected. -/
theorem claim_C9 :
    (∀ f : String,
      allowed_file f = true
        ↔ ('.' ∈ f.toList ∧ pyLower (afterLastDot f) ∈ ALLOWED_EXTENSIONS))
    ∧ allowed_file "clip.MP4" = true
    ∧ allowed_file "clip.mp4.txt" = false
    ∧ allowed_file "clip" = false := by
  refine ⟨fun f => ?_, by decide, by decide, by decide⟩
  simp [allowed_file, List.contains, List.elem_iff]

/-- C10: when `classes.json` exists but has no top-level `classes` key,
`get_class_labels` returns the empty list (not the defaults) and
`GET /classes` responds with an empty array and count 0; whenever the
file is present the result comes from the file contents alone. -/
theorem claim_C10 :
    get_class_labels none (some ⟨none⟩) = []
    ∧ get_classes (get_class_labels none (some ⟨none⟩)) = ([], 0)
    ∧ ∀ f : ClassesFile, get_class_labels none (some f) = f.classes.getD [] :=
  ⟨rfl, rfl, fun _ => rfl⟩

/-- C1: for a video from which a decoder yields `K` frames with
`1 ≤ K < SEQ_LENGTH`, `extract_frames` returns exactly `SEQ_LENGTH`
frames whose first `K` entries are the decoded frames in decode order
(resized to `IMG_SIZE × IMG_SIZE` and divided by 255) and whose last
`SEQ_LENGTH − K` entries are all-zero `IMG_SIZE × IMG_SIZE × 3` frames;
this holds on the primary (imageio) path for any fallback state `cap`,
and on the fallback (OpenCV) path. -/
theorem claim_C1 :
    ∀ (praws fraws : List Image) (cap : Option (List Image)) (K : Nat),
      praws.length = K → fraws.length = K → 1 ≤ K → K < SEQ_LENGTH →
      (∃ l, extract_frames (some praws) cap SEQ_LENGTH IMG_SIZE = some l
        ∧ l.length = SEQ_LENGTH
        ∧ l.take K = praws.map (primaryStep IMG_SIZE)
        ∧ l.drop K = List.replicate (SEQ_LENGTH - K) (zeroImage IMG_SIZE))
      ∧ (∃ l, extract_frames none (some fraws) SEQ_LENGTH IMG_SIZE = some l
        ∧ l.length = SEQ_LENGTH
        ∧ l.take K = fraws.map (fallbackStep IMG_SIZE)
        ∧ l.drop K = List.replicate (SEQ_LENGTH - K) (zeroImage IMG_SIZE)) := by
  intro praws fraws cap K hp hf h1 hK
  have hpt : praws.take SEQ_LENGTH = praws :=
    List.take_of_length_le (by omega)
  have hft : fraws.take SEQ_LENGTH = fraws :=
    List.take_of_length_le (by omega)
  have hpl : (praws.map (primaryStep IMG_SIZE)).length = K := by
    simpa using hp
  have hfl : (fraws.map (fallbackStep IMG_SIZE)).length = K := by
    simpa using hf
  constructor
  · have e0 := decodedFrames_primary praws cap SEQ_LENGTH IMG_SIZE
    rw [hpt] at e0
    have e1 := extract_frames_of_some e0
    rw [hpl, if_neg (by omega)] at e1
    refine ⟨padFrames (praws.map (primaryStep IMG_SIZE)) SEQ_LENGTH IMG_SIZE,
      e1, ?_, ?_, ?_⟩
    · simp [padFrames, hpl]; omega
    · simp only [padFrames]
      exact List.take_left' hpl
    · simp only [padFrames, hpl]
      exact List.drop_left' hpl
  · have e0 := decodedFrames_fallback fraws SEQ_LENGTH IMG_SIZE
    rw [hft, hfl, if_neg (by omega)] at e0
    have e1 := extract_frames_of_some e0
    rw [hfl, if_neg (by omega)] at e1
    refine ⟨padFrames (fraws.map (fallbackStep IMG_SIZE)) SEQ_LENGTH IMG_SIZE,
      e1, ?_, ?_, ?_⟩
    · simp [padFrames, hfl]; omega
    · simp only [padFrames]
      exact List.take_left' hfl
    · simp only [padFrames, hfl]
      exact List.drop_left' hfl

/-- C1 witness: a single decoded frame (`K = 1`) on either path yields a
20-frame sequence, the frame first and 19 zero frames after it. -/
theorem claim_C1_witness :
    (∃ l, extract_frames (some [testImage]) none SEQ_LENGTH IMG_SIZE = some l
      ∧ l.length = SEQ_LENGTH
      ∧ l.take 1 = [testImage].map (primaryStep IMG_SIZE)
      ∧ l.drop 1 = List.replicate (SEQ_LENGTH - 1) (zeroImage IMG_SIZE))
    ∧ (∃ l, extract_frames none (some [testImage]) SEQ_LENGTH IMG_SIZE = some l
      ∧ l.length = SEQ_LENGTH
      ∧ l.take 1 = [testImage].map (fallbackStep IMG_SIZE)
      ∧ l.drop 1 = List.replicate (SEQ_LENGTH - 1) (zeroImage IMG_SIZE)) :=
  claim_C1 [testImage] [testImage] none 1 rfl rfl (by decide) (by decide)

/-- C2: for a video whose primary decoder yields at least `SEQ_LENGTH`
frames, `extract_frames` uses exactly the first `SEQ_LENGTH` decoded
frames in decode order (no padding), and the result depends only on the
first `SEQ_LENGTH` frames of the stream: any stream with the same first
`SEQ_LENGTH` frames produces the same output. -/
theorem claim_C2 :
    ∀ (raws : List Image) (cap : Option (List Image)),
      SEQ_LENGTH ≤ raws.length →
      extract_frames (some raws) cap SEQ_LENGTH IMG_SIZE
          = some ((raws.take SEQ_LENGTH).map (primaryStep IMG_SIZE))
      ∧ ((raws.take SEQ_LENGTH).map (primaryStep IMG_SIZE)).length = SEQ_LENGTH
      ∧ ∀ raws2 : List Image,
          raws2.take SEQ_LENGTH = raws.take SEQ_LENGTH →
          extract_frames (some raws2) cap SEQ_LENGTH IMG_SIZE
            = extract_frames (some raws) cap SEQ_LENGTH IMG_SIZE := by
  intro raws cap h
  have hlen : ((raws.take SEQ_LENGTH).map (primaryStep IMG_SIZE)).length
      = SEQ_LENGTH := by
    rw [List.length_map, List.length_take]
    exact Nat.min_eq_left h
  have e1 := extract_frames_of_some (decodedFrames_primary raws cap SEQ_LENGTH IMG_SIZE)
  rw [hlen, if_neg (by decide)] at e1
  refine ⟨?_, hlen, fun raws2 h2 => ?_⟩
  · rw [e1]
    simp [padFrames, hlen]
    omega
  · have e2 := decodedFrames_primary raws2 cap SEQ_LENGTH IMG_SIZE
    rw [h2] at e2
    rw [extract_frames_of_some e2,
      extract_frames_of_some (decodedFrames_primary raws cap SEQ_LENGTH IMG_SIZE)]

/-- C2 witness: a 25-frame stream is trimmed to its first 20 frames, and
appending further frames to the stream does not change the result. -/
theorem claim_C2_witness :
    extract_frames (some (List.replicate 25 testImage)) none SEQ_LENGTH IMG_SIZE
        = some (((List.replicate 25 testImage).take SEQ_LENGTH).map
            (primaryStep IMG_SIZE))
    ∧ (((List.replicate 25 testImage).take SEQ_LENGTH).map
        (primaryStep IMG_SIZE)).length = SEQ_LENGTH
    ∧ ∀ raws2 : List Image,
        raws2.take SEQ_LENGTH = (List.replicate 25 testImage).take SEQ_LENGTH →
        extract_frames (some raws2) none SEQ_LENGTH IMG_SIZE
          = extract_frames (some (List.replicate 25 testImage)) none
              SEQ_LENGTH IMG_SIZE :=
  claim_C2 (List.replicate 25 testImage) none (by simp [SEQ_LENGTH])

/-- C3: `extract_frames` returns `None` exactly when no usable frames
are obtained: the primary decoder succeeding with zero frames, or the
primary decoder raising while the fallback capture cannot be opened or
yields zero frames.  Moreover when the primary decoder succeeds the
fallback state is never consulted (the fallback is tried only on
primary failure). -/
theorem claim_C3 :
    (∀ p c : Option (List Image),
      extract_frames p c SEQ_LENGTH IMG_SIZE = none
        ↔ (p = some [] ∨ (p = none ∧ (c = none ∨ c = some []))))
    ∧ ∀ (raws : List Image) (c c' : Option (List Image)),
        extract_frames (some raws) c SEQ_LENGTH IMG_SIZE
          = extract_frames (some raws) c' SEQ_LENGTH IMG_SIZE := by
  constructor
  · intro p c
    match p with
    | some [] =>
      rw [extract_frames_of_some (decodedFrames_primary [] c SEQ_LENGTH IMG_SIZE)]
      simp
    | some (a :: l) =>
      have hlen : (((a :: l).take SEQ_LENGTH).map (primaryStep IMG_SIZE)).length
          ≠ 0 := by
        simp [List.length_take, SEQ_LENGTH]
      have e := extract_frames_of_some
        (decodedFrames_primary (a :: l) c SEQ_LENGTH IMG_SIZE)
      rw [if_neg hlen] at e
      rw [e]
      simp
    | none =>
      match c with
      | none =>
        rw [extract_frames_of_none (decodedFrames_noDecoder SEQ_LENGTH IMG_SIZE)]
        simp
      | some [] =>
        have e0 : decodedFrames none (some []) SEQ_LENGTH IMG_SIZE = none := by
          rw [decodedFrames_fallback]
          simp
        rw [extract_frames_of_none e0]
        simp
      | some (a :: l) =>
        have hlen : (((a :: l).take SEQ_LENGTH).map (fallbackStep IMG_SIZE)).length
            ≠ 0 := by
          simp [List.length_take, SEQ_LENGTH]
        have e0 := decodedFrames_fallback (a :: l) SEQ_LENGTH IMG_SIZE
        rw [if_neg hlen] at e0
        have e := extract_frames_of_some e0
        rw [if_neg hlen] at e
        rw [e]
        simp
  · intro raws c c'
    rfl

/-- C6: for every `/predict` request whose upload is saved (field
present, non-empty filename, allowed extension), the saved file
`uploads/<secure filename>` is absent from the filesystem returned with
the response — on every exit path (success, decode failure, or an
exception during preprocessing/inference) — and no other path is
affected. -/
theorem claim_C6 :
    ∀ (req : PredictRequest) (secure : String → String)
      (primary cap : String → Option (List Image)) (inferExc : Option String)
      (preds : List ℚ) (labels : List String) (fs : FS),
      req.hasVideoField = true → req.filename ≠ "" →
      allowed_file req.filename = true →
      (predict req secure primary cap inferExc preds labels fs).2
          (UPLOAD_FOLDER ++ "/" ++ secure req.filename) = false
      ∧ ∀ q : String, q ≠ UPLOAD_FOLDER ++ "/" ++ secure req.filename →
          (predict req secure primary cap inferExc preds labels fs).2 q
            = fs q := by
  intro req secure primary cap inferExc preds labels fs h1 h2 h3
  unfold predict
  rw [h1, h3]
  simp only [Bool.true_eq_false, if_false, if_neg h2]
  exact ⟨by simp [fsCleanup], fun q hq => by simp [fsCleanup, fsSave, hq]⟩

/-- C6 witness: a request carrying `clip.mp4` against an empty
filesystem: after the response the saved path is absent and other paths
are untouched. -/
theorem claim_C6_witness :
    (predict ⟨true, "clip.mp4"⟩ id (fun _ => none) (fun _ => none) none [] []
        fsEmpty).2 (UPLOAD_FOLDER ++ "/" ++ id "clip.mp4") = false
    ∧ ∀ q : String, q ≠ UPLOAD_FOLDER ++ "/" ++ id "clip.mp4" →
        (predict ⟨true, "clip.mp4"⟩ id (fun _ => none) (fun _ => none) none [] []
          fsEmpty).2 q = fsEmpty q :=
  claim_C6 ⟨true, "clip.mp4"⟩ id (fun _ => none) (fun _ => none) none [] []
    fsEmpty rfl (by decide) (by decide)

theorem sortedPredictions_pairwise (labels : List String) (preds : List ℚ) :
    (sortedPredictions labels preds).Pairwise (fun a b => b.2 ≤ a.2) := by
  have h := @List.sorted_mergeSort (String × ℚ)
    (fun a b => decide (b.2 ≤ a.2))
    (fun a b c hab hbc => by
      simp only [decide_eq_true_eq] at hab hbc ⊢
      exact le_trans hbc hab)
    (fun a b => by
      simp only [Bool.or_eq_true, decide_eq_true_eq]
      exact le_total b.2 a.2)
    (allPredictionsList labels preds)
  exact h.imp (fun hab => of_decide_eq_true hab)

/-- C7 (amended): in every successful `/predict` response the
`all_predictions` pairs are ordered descending by probability value —
non-strictly: adjacent entries with equal probability keep their
class-index order, so the order is non-increasing rather than strictly
decreasing. -/
theorem claim_C7 :
    ∀ (req : PredictRequest) (secure : String → String)
      (primary cap : String → Option (List Image)) (inferExc : Option String)
      (preds : List ℚ) (labels : List String) (fs : FS)
      (act : String) (idx : Nat) (ap : List (String × ℚ)),
      (predict req secure primary cap inferExc preds labels fs).1
          = .success act idx ap →
      List.Chain' (fun a b => b.2 ≤ a.2) ap := by
  intro req secure primary cap inferExc preds labels fs act idx ap h
  unfold predict at h
  split at h
  · cases h
  · split at h
    · cases h
    · split at h
      · cases h
      · simp only at h
        split at h
        · cases h
        · split at h
          · cases h
          · cases h
            exact (sortedPredictions_pairwise labels preds).chain'

unseal List.merge List.mergeSort in
/-- C7 witness: a successful prediction applying the amended theorem at a
concrete request yields a descending `all_predictions` list. -/
theorem claim_C7_witness :
    List.Chain' (fun a b : String × ℚ => b.2 ≤ a.2)
      [("basketball", halfQ), ("biking", halfQ)] :=
  claim_C7 ⟨true, "clip.mp4"⟩ id (fun _ => some [testImage]) (fun _ => none)
    none [halfQ, halfQ] ["basketball", "biking"] fsEmpty
    "basketball" 0 [("basketball", halfQ), ("biking", halfQ)] (by decide)

unseal List.merge List.mergeSort in
/-- C7 counterexample: with tied probabilities (both 1/2) the successful
response's `all_predictions` list is not strictly descending, refuting
the claim as stated. -/
theorem claim_C7_counterexample :
    (predict ⟨true, "clip.mp4"⟩ id (fun _ => some [testImage]) (fun _ => none)
        none [halfQ, halfQ] ["basketball", "biking"] fsEmpty).1
      = .success "basketball" 0 [("basketball", halfQ), ("biking", halfQ)]
    ∧ ¬ List.Chain' (fun a b : String × ℚ => b.2 < a.2)
        [("basketball", halfQ), ("biking", halfQ)] := by
  refine ⟨by decide, ?_⟩
  intro hchain
  rw [List.chain'_cons] at hchain
  exact lt_irrefl halfQ hchain.1

end ActionRec
